import Mathlib

/-!
Verification of the micro-device-plugin node agent against its design
specification.

The Go sources are shallowly embedded: Go maps become total functions
(`String → Bool` for the presence set `allocated`, `String → Option String`
for `deviceToPod`, matching Go's comma-ok presence test and zero-value
lookup), mutation becomes explicit state passing, fallible calls return an
error component, and calls into external collaborators (the kubernetes
client, the `nvidia-smi` tool, the gRPC stream) are abstracted as oracles
passed in as arguments.
-/

/-- State of `SimpleAllocator` (pkg/device/simulator.go): the presence set
`allocated` (Go `map[string]bool`, where only presence of the key matters)
and the owner map `deviceToPod` (Go `map[string]string`; `none` models a key
that is absent from the map, Go lookups of absent keys yield `""`). -/
structure AllocState where
  allocated : String → Bool
  deviceToPod : String → Option String

/-- The single allocator error value `ErrDeviceAlreadyAllocated`. -/
inductive AllocError where
  | deviceAlreadyAllocated
deriving DecidableEq

namespace SimpleAllocator

/-- Embeds `SimpleAllocator.Allocate(ids, podUID)` (simulator.go lines
58-82): a first loop returns `ErrDeviceAlreadyAllocated` as soon as some id
of `ids` is present in `allocated` (the map is not touched before that
return); otherwise two further loops insert every id into `allocated` and
record `deviceToPod[id] = podUID`.  The pair holds the post-call state and
the returned error. -/
def Allocate (st : AllocState) (ids : List String) (podUID : String) :
    AllocState × Option AllocError :=
  if ids.any st.allocated then
    (st, some .deviceAlreadyAllocated)
  else
    ({ allocated := fun d => st.allocated d || ids.contains d,
       deviceToPod := fun d => if ids.contains d then some podUID else st.deviceToPod d },
     none)

/-- Embeds `SimpleAllocator.Deallocate(ids)` (simulator.go lines 92-103):
for each id of `ids` that is present in `allocated`, both the `allocated`
entry and the `deviceToPod` entry are deleted; ids absent from `allocated`
are skipped entirely (their `deviceToPod` entry, if any, survives). -/
def Deallocate (st : AllocState) (ids : List String) : AllocState :=
  { allocated := fun d => st.allocated d && !ids.contains d,
    deviceToPod := fun d =>
      if ids.contains d && st.allocated d then none else st.deviceToPod d }

/-- Embeds `SimpleAllocator.GetPodUID(deviceID)` (simulator.go lines 85-89):
a plain Go map read, returning the zero value `""` for an absent key. -/
def GetPodUID (st : AllocState) (deviceID : String) : String :=
  (st.deviceToPod deviceID).getD ""

/-- Embeds `SimpleAllocator.CleanupOrphanedDevices(discoveredIDs)`
(simulator.go lines 116-126): every key of `allocated` that is absent from
`discoveredIDs` is deleted from `allocated`.  The loop body touches only
the `allocated` map; `deviceToPod` is left as it was. -/
def CleanupOrphanedDevices (st : AllocState) (discoveredIDs : String → Bool) :
    AllocState :=
  { allocated := fun d => st.allocated d && discoveredIDs d,
    deviceToPod := st.deviceToPod }

/-- Embeds `SimpleAllocator.GetAllocationMap` (simulator.go lines 129-139):
a defensive copy of `deviceToPod`. -/
def GetAllocationMap (st : AllocState) : String → Option String :=
  st.deviceToPod

/-- Modelled from the spec: `IsAvailable(id): true iff absent from the map.`
The method is called by the protocol server's `Allocate` handler
(unnamed/part_000) but its definition is not among the provided sources;
absence from the allocation map is absence from the `allocated` set. -/
def IsAvailable (st : AllocState) (deviceID : String) : Bool :=
  !st.allocated deviceID

end SimpleAllocator

/-- The empty allocator produced by `NewSimpleAllocator`. -/
def AllocState.empty : AllocState :=
  { allocated := fun _ => false, deviceToPod := fun _ => none }

namespace MIGManager

/-- Character-level embedding of Go `strings.Split(s, ".")` for the
single-character separator `"."` (used by `getProfileMemoryReq`,
nvidia.go line 433): the string is cut at every occurrence of `'.'`;
splitting the empty string yields one empty token. -/
def splitDot : List Char → List (List Char)
  | [] => [[]]
  | c :: rest =>
    if c = '.' then [] :: splitDot rest
    else
      match splitDot rest with
      | [] => [[c]]
      | g :: gs => (c :: g) :: gs

/-- Embedding of the suffix-trimming step of `getProfileMemoryReq`
(nvidia.go lines 439-443): Go first tests `strings.HasSuffix(memPart,
"gb")` and trims `"gb"`, otherwise tests suffix `"g"` and trims `"g"`,
otherwise leaves the token alone. -/
def trimMemSuffix (cs : List Char) : List Char :=
  match cs.reverse with
  | 'b' :: 'g' :: rest => rest.reverse
  | 'g' :: rest => rest.reverse
  | _ => cs

/-- Decimal value of a digit list (most significant first). -/
def digitsVal (cs : List Char) : Nat :=
  cs.foldl (fun acc c => acc * 10 + (c.toNat - 48)) 0

/-- Embedding of Go `strconv.ParseUint(s, 10, 64)` (nvidia.go line 445):
succeeds exactly on a nonempty string of decimal digits whose value fits
in 64 bits; signs, spaces and any other character are rejected. -/
def parseGoUint64 (cs : List Char) : Option Nat :=
  if cs.isEmpty then none
  else if cs.all Char.isDigit then
    if digitsVal cs < 2 ^ 64 then some (digitsVal cs) else none
  else none

/-- Embeds `MIGManager.getProfileMemoryReq` (nvidia.go lines 432-452):
split the profile on `"."`; fewer than two tokens yields 0; otherwise trim
a `"gb"` or `"g"` suffix from the second token and parse it as a uint64,
yielding 0 on a parse error and otherwise the value times 1024 (the Go
multiplication is on uint64, hence the reduction modulo `2 ^ 64`). -/
def getProfileMemoryReq (profile : String) : Nat :=
  let parts := splitDot profile.data
  if parts.length < 2 then 0
  else
    match parseGoUint64 (trimMemSuffix (parts.getD 1 [])) with
    | none => 0
    | some memGB => memGB * 1024 % 2 ^ 64

/-- Embeds the instance-count computation of `MIGManager.createMIGDevices`
(nvidia.go lines 518-546): `maxInstances = totalMemory / profileMem` when
`profileMem > 0` (otherwise 0); a GPU with `maxInstances = 0` is skipped
with a warning; `createCount` is `maxInstances`, capped replacement by
`instanceCount` when `0 < instanceCount ≤ maxInstances`; a final
`createCount = 0` is skipped.  `none` models the two `continue` paths. -/
def computeCreateCount (totalMemory profileMem instanceCount : Nat) : Option Nat :=
  if profileMem > 0 then
    let maxInstances := totalMemory / profileMem
    if maxInstances = 0 then none
    else
      let createCount :=
        if instanceCount > 0 then
          if instanceCount > maxInstances then maxInstances else instanceCount
        else maxInstances
      if createCount = 0 then none else some createCount
  else none

end MIGManager

/-- One `nvidia-smi mig -cgi <count>*<profileId> -C` invocation as issued by
`createMIGDevices` (nvidia.go lines 557-560): the request text carries the
full `createCount` and the numeric profile id. -/
structure MIGCreateCall where
  count : Nat
  profileId : Nat
deriving DecidableEq

/-- Auxiliary loop of `createCalls`; `fuel` is the number of loop
iterations still allowed, `i` the Go loop counter. -/
def createCallsAux (createCount profileId : Nat) (callOk : Nat → Bool) :
    Nat → Nat → List MIGCreateCall
  | 0, _ => []
  | fuel + 1, i =>
    { count := createCount, profileId := profileId } ::
      (if callOk i then createCallsAux createCount profileId callOk fuel (i + 1) else [])

/-- Embeds the creation loop of `MIGManager.createMIGDevices` (nvidia.go
lines 556-566): `profileArg := "<createCount>*<profileID>"`, then
`for i := 0; i < createCount; i++` one tool call with that argument is
issued, and the loop `break`s after the first failing call.  `callOk i`
is the oracle outcome of the i-th call. -/
def createCalls (createCount profileId : Nat) (callOk : Nat → Bool) : List MIGCreateCall :=
  createCallsAux createCount profileId callOk createCount 0

/-- The startup configuration fields of `MIGManager` that the
reconciliation pass reads (nvidia.go lines 313-344). -/
structure MIGConfig where
  profile : String
  skipConfigured : Bool
  instanceCount : Nat

/-- Oracle outcomes of the external-tool invocations that
`createMIGDevices` performs for one GPU of the pass (nvidia.go lines
466-516): the MIG-mode query, the optional `--enable-mig`, the existing
instance count query, the memory query, and the `getProfileID`
resolution; `createOk` gives the outcome of each creation call. -/
structure GpuToolEnv where
  index : String
  modeQueryOk : Bool
  migModeEnabled : Bool
  enableOk : Bool
  countQueryOk : Bool
  existingCount : Nat
  memQueryOk : Bool
  totalMemory : Nat
  profileIdResolved : Option Nat
  createOk : Nat → Bool

/-- Embeds the per-GPU body of `MIGManager.createMIGDevices` (nvidia.go
lines 466-566), returning the partition-creation calls issued for that
GPU; every `continue` path (failed query, skip-configured, zero count,
failed profile resolution) yields `[]`.  Destroy/enable invocations are
not partition-creation calls and are not recorded. -/
def reconcileGpu (cfg : MIGConfig) (g : GpuToolEnv) : List MIGCreateCall :=
  if !g.modeQueryOk then []
  else if !g.migModeEnabled && !g.enableOk then []
  else if !g.countQueryOk then []
  else if g.existingCount > 0 && cfg.skipConfigured then []
  else if !g.memQueryOk then []
  else
    match MIGManager.computeCreateCount g.totalMemory
        (MIGManager.getProfileMemoryReq cfg.profile) cfg.instanceCount with
    | none => []
    | some createCount =>
      match g.profileIdResolved with
      | none => []
      | some pid => createCalls createCount pid g.createOk

/-- Embeds the outer GPU loop of `MIGManager.createMIGDevices` (nvidia.go
lines 465-569): every discovered GPU index is processed in order; a
per-GPU failure only ends that GPU's body (`continue`), never the pass,
and the function then returns `nil`. -/
def createMIGDevicesRun (cfg : MIGConfig) (gpus : List GpuToolEnv) :
    List (String × List MIGCreateCall) :=
  gpus.map fun g => (g.index, reconcileGpu cfg g)

/-- Pod phase as read by `isPodActive` (unnamed/part_000 lines 824-843). -/
inductive PodPhase where
  | running
  | pending
  | succeeded
  | failed
  | unknown
deriving DecidableEq, BEq

/-- The fields of the pod object that `isPodActive` inspects: whether
`DeletionTimestamp` is set, and the pod phase. -/
structure PodStatus where
  deleting : Bool
  phase : PodPhase
deriving DecidableEq, BEq

/-- Embeds `DevicePluginServer.isPodActive` (unnamed/part_000 lines
824-843).  The kubernetes `Get` is abstracted as the oracle `lookup`;
`none` models a lookup error, which the code treats as not active.  An
empty UID is not active; a pod with a deletion timestamp is not active;
otherwise the pod is active exactly when its phase is Running or
Pending. -/
def isPodActive (lookup : String → Option PodStatus) (podUID : String) : Bool :=
  if podUID = "" then false
  else
    match lookup podUID with
    | none => false
    | some p =>
      if p.deleting then false
      else p.phase == .running || p.phase == .pending

/-- Embeds the availability pre-scan of the protocol server's `Allocate`
handler (unnamed/part_000 lines 564-573): the requested ids are examined
in order; an available id is passed over; an unavailable id whose
recorded owner is not active is deallocated on the spot and the scan
continues; an unavailable id whose owner is active ends the handler with
the `device ... is already allocated` error.  The result pair is the
allocator state when the scan ends and the conflicting id, if any. -/
def checkAvailability (lookup : String → Option PodStatus) :
    AllocState → List String → AllocState × Option String
  | st, [] => (st, none)
  | st, id :: rest =>
    if SimpleAllocator.IsAvailable st id then
      checkAvailability lookup st rest
    else if isPodActive lookup (SimpleAllocator.GetPodUID st id) then
      (st, some id)
    else
      checkAvailability lookup (SimpleAllocator.Deallocate st [id]) rest

/-- The two error shapes of the `Allocate` handler for one container:
the conflict error `device <id> is already allocated` from the pre-scan,
and `allocation failed: <err>` wrapping an allocator error. -/
inductive AllocateReqError where
  | alreadyAllocated (deviceId : String)
  | allocationFailed (e : AllocError)
deriving DecidableEq

/-- Embeds one container iteration of `DevicePluginServer.Allocate`
(unnamed/part_000 lines 558-578): run the availability pre-scan, abort
with the conflict error if it found an active owner, otherwise call
`SimpleAllocator.Allocate(ids, podUID)` with the resolved caller
identity and abort on its error. -/
def handleContainerAllocate (lookup : String → Option PodStatus) (st : AllocState)
    (ids : List String) (podUID : String) : AllocState × Option AllocateReqError :=
  match checkAvailability lookup st ids with
  | (st', some conflictId) => (st', some (.alreadyAllocated conflictId))
  | (st', none) =>
    match SimpleAllocator.Allocate st' ids podUID with
    | (st'', none) => (st'', none)
    | (st'', some e) => (st'', some (.allocationFailed e))

/-- Embeds the marking scan of `DevicePluginServer.ResourceRecycler`
(unnamed/part_000 lines 795-808) over one snapshot of the allocation
map: an entry with an empty owner token is marked for release; an entry
whose owner is not active (per `isPodActive`) is marked; entries with an
active owner are not marked. -/
def recyclerToRelease (lookup : String → Option PodStatus) :
    List (String × String) → List String
  | [] => []
  | (d, uid) :: rest =>
    if uid = "" then d :: recyclerToRelease lookup rest
    else if !isPodActive lookup uid then d :: recyclerToRelease lookup rest
    else recyclerToRelease lookup rest

/-- Embeds one tick of `DevicePluginServer.ResourceRecycler`
(unnamed/part_000 lines 788-814): take the allocation-map snapshot; an
empty map is skipped; otherwise scan it, and release all marked devices
in one batch `Deallocate` call (only issued when something was
marked). -/
def recyclerPass (lookup : String → Option PodStatus) (st : AllocState)
    (snapshot : List (String × String)) : AllocState :=
  if snapshot.isEmpty then st
  else
    let toRelease := recyclerToRelease lookup snapshot
    if toRelease.isEmpty then st
    else SimpleAllocator.Deallocate st toRelease

/-- The snapshot list enumerates the Go map `deviceToPod` (the order of a
Go `range` is arbitrary; only the entry set is determined). -/
def Enumerates (st : AllocState) (snapshot : List (String × String)) : Prop :=
  ∀ d p, (d, p) ∈ snapshot ↔ st.deviceToPod d = some p

/-- Outcome of one `updateDeviceList` invocation (unnamed/part_000 lines
485-536): the `DiscoverGPUs` call can fail (no send is attempted), the
`stream.Send` can fail, or the push succeeds. -/
inductive UpdateOutcome where
  | discoverFail
  | sendFail
  | okPush
deriving DecidableEq

/-- The three events the `ListAndWatch` select waits on (unnamed/part_000
lines 466-482): the 10s ticker, a health-change signal carrying a device
id, and the stop channel. -/
inductive WatchEvent where
  | tick
  | healthSignal (id : String)
  | stopSignal
deriving DecidableEq

/-- How a `ListAndWatch` run ended: still blocked in the select
(streaming), returned `nil` on stop, or returned an error. -/
inductive WatchStatus where
  | streaming
  | stopped
  | faulted
deriving DecidableEq

/-- Embeds the select loop of `DevicePluginServer.ListAndWatch`
(unnamed/part_000 lines 466-482), driven by the sequence of events the
select receives; `outcome k` is the result of the k-th
`updateDeviceList` invocation of the whole RPC and `n` counts the
invocations already made.  A tick or health signal runs one update and
loops on success, returning the error on failure; the stop signal
returns `nil` at once.  The result is the total number of
`updateDeviceList` invocations and how the run ended. -/
def runWatchLoop (outcome : Nat → UpdateOutcome) :
    List WatchEvent → Nat → Nat × WatchStatus
  | [], n => (n, .streaming)
  | .stopSignal :: _, n => (n, .stopped)
  | .tick :: rest, n =>
    if outcome n = .okPush then runWatchLoop outcome rest (n + 1) else (n + 1, .faulted)
  | .healthSignal _ :: rest, n =>
    if outcome n = .okPush then runWatchLoop outcome rest (n + 1) else (n + 1, .faulted)

/-- Embeds `DevicePluginServer.ListAndWatch` (unnamed/part_000 lines
454-483): one `updateDeviceList` runs before the select loop is ever
entered; its failure ends the RPC with an error before any event is
consumed. -/
def listAndWatch (outcome : Nat → UpdateOutcome) (events : List WatchEvent) :
    Nat × WatchStatus :=
  if outcome 0 = .okPush then runWatchLoop outcome events 1 else (1, .faulted)

/-- Joint state of the health-signalling pair: `pending` holds the device
ids the health-check task still has to send on `healthChan`, `buffer`
the channel content (`make(chan string, 1)`, unnamed/part_000 line 441),
and `pushes` the number of health-triggered `updateDeviceList` pushes
the watch loop has performed. -/
structure HealthSignalState where
  pending : List String
  buffer : Option String
  pushes : Nat
deriving DecidableEq

/-- Number of buffered notifications. -/
def bufCount : Option String → Nat
  | none => 0
  | some _ => 1

/-- Interleaving semantics of the health-signal channel.  `send` embeds
`s.healthChan <- d.ID()` (unnamed/part_000 line 725): a send on a full
capacity-1 Go channel is not enabled — the sender blocks — so the step
requires an empty buffer and never discards a signal.  `recv` embeds the
`case id := <-s.healthChan` arm of the watch select (lines 473-477): it
drains the buffer and performs one push. -/
inductive HealthStep : HealthSignalState → HealthSignalState → Prop
  | send (x : String) (rest : List String) (p : Nat) :
      HealthStep ⟨x :: rest, none, p⟩ ⟨rest, some x, p⟩
  | recv (pend : List String) (x : String) (p : Nat) :
      HealthStep ⟨pend, some x, p⟩ ⟨pend, none, p + 1⟩

/-- Reachability in the health-signal system. -/
def HealthReach : HealthSignalState → HealthSignalState → Prop :=
  Relation.ReflTransGen HealthStep

/-- The relation between the allocator state at the start of the
availability pre-scan and the state when the scan ends: every device is
either untouched, or was a stale entry (present, owner not active) that
the scan silently deallocated. -/
def ScanRel (lookup : String → Option PodStatus) (st st' : AllocState) : Prop :=
  ∀ d, (st'.allocated d = st.allocated d ∧ st'.deviceToPod d = st.deviceToPod d)
     ∨ (st.allocated d = true ∧ st'.allocated d = false ∧ st'.deviceToPod d = none ∧
        isPodActive lookup (SimpleAllocator.GetPodUID st d) = false)

theorem list_contains_of_mem {l : List String} {a : String} (h : a ∈ l) :
    l.contains a = true := by
  simp [List.contains, List.elem_eq_mem, h]

/-- Claim C1 (confirmed): `SimpleAllocator.Allocate(ids, owner)` is
all-or-nothing — if some id of `ids` is already present in the allocation
map the call returns `ErrDeviceAlreadyAllocated` and both the allocated
set and the device-to-owner map are exactly unchanged; otherwise the call
returns no error and afterwards every id of `ids` is present and mapped
to `owner`. -/
theorem C1_allocate_all_or_nothing (st : AllocState) (ids : List String) (owner : String) :
    ((∃ id, id ∈ ids ∧ st.allocated id = true) →
        SimpleAllocator.Allocate st ids owner = (st, some .deviceAlreadyAllocated)) ∧
    ((∀ id, id ∈ ids → st.allocated id = false) →
        (SimpleAllocator.Allocate st ids owner).2 = none ∧
        ∀ id, id ∈ ids →
          (SimpleAllocator.Allocate st ids owner).1.allocated id = true ∧
          (SimpleAllocator.Allocate st ids owner).1.deviceToPod id = some owner) := by
  constructor
  · rintro ⟨id, hmem, hall⟩
    have h : ids.any st.allocated = true := List.any_eq_true.mpr ⟨id, hmem, hall⟩
    simp [SimpleAllocator.Allocate, h]
  · intro h
    have hany : ids.any st.allocated = false := by
      simp only [List.any_eq_false]
      intro x hx
      simp [h x hx]
    refine ⟨by simp [SimpleAllocator.Allocate, hany], ?_⟩
    intro id hmem
    simp only [SimpleAllocator.Allocate, hany, Bool.false_eq_true, if_false,
      list_contains_of_mem hmem, Bool.or_true, if_true]
    exact ⟨trivial, trivial⟩

/-- Witness for C1: `Allocate(["gpu-0"], A)` followed by
`Allocate(["gpu-0"], B)` with no intervening release — the second call
fails with the already-allocated error, the state is unchanged, and
gpu-0 stays owned by A. -/
theorem C1_witness :
    (SimpleAllocator.Allocate AllocState.empty ["gpu-0"] "A").1.deviceToPod "gpu-0" = some "A" ∧
    SimpleAllocator.Allocate (SimpleAllocator.Allocate AllocState.empty ["gpu-0"] "A").1 ["gpu-0"] "B"
      = ((SimpleAllocator.Allocate AllocState.empty ["gpu-0"] "A").1, some .deviceAlreadyAllocated) :=
  ⟨by decide,
   (C1_allocate_all_or_nothing _ _ _).1 ⟨"gpu-0", by decide, by decide⟩⟩

/-- Claim C10 (confirmed): `SimpleAllocator.Allocate` treats the id list
as a set with respect to conflicts — duplicate occurrences of a currently
unallocated id never trigger the already-allocated error (availability is
checked against the prior state before any insertion) and the result is
pointwise the same as allocating the deduplicated list; allocating the
empty list always succeeds and leaves both maps unchanged. -/
theorem C10_duplicates_as_set (st : AllocState) (ids : List String) (owner : String)
    (h : ∀ id, id ∈ ids → st.allocated id = false) :
    ((SimpleAllocator.Allocate st ids owner).2 = none ∧
     ∀ d, (SimpleAllocator.Allocate st ids owner).1.allocated d
            = (SimpleAllocator.Allocate st ids.dedup owner).1.allocated d ∧
          (SimpleAllocator.Allocate st ids owner).1.deviceToPod d
            = (SimpleAllocator.Allocate st ids.dedup owner).1.deviceToPod d) ∧
    ((SimpleAllocator.Allocate st [] owner).2 = none ∧
     ∀ d, (SimpleAllocator.Allocate st [] owner).1.allocated d = st.allocated d ∧
          (SimpleAllocator.Allocate st [] owner).1.deviceToPod d = st.deviceToPod d) := by
  have hany : ids.any st.allocated = false := by
    simp only [List.any_eq_false]
    intro x hx
    simp [h x hx]
  have hany' : ids.dedup.any st.allocated = false := by
    simp only [List.any_eq_false]
    intro x hx
    simp [h x (List.mem_dedup.mp hx)]
  have hcont : ∀ d : String, ids.dedup.contains d = ids.contains d := by
    intro d
    simp [List.contains, List.elem_eq_mem, List.mem_dedup]
  refine ⟨⟨by simp [SimpleAllocator.Allocate, hany], ?_⟩, ⟨by simp [SimpleAllocator.Allocate], ?_⟩⟩
  · intro d
    simp [SimpleAllocator.Allocate, hany, hany', hcont]
  · intro d
    simp [SimpleAllocator.Allocate]


/-- Witness for C10: allocating `["gpu-0", "gpu-0"]` on the empty allocator
succeeds, and gpu-0 ends up exactly as when listed once. -/
theorem C10_witness :
    (SimpleAllocator.Allocate AllocState.empty ["gpu-0", "gpu-0"] "A").2 = none ∧
    ((SimpleAllocator.Allocate AllocState.empty ["gpu-0", "gpu-0"] "A").1.allocated "gpu-0"
       = (SimpleAllocator.Allocate AllocState.empty
            (["gpu-0", "gpu-0"] : List String).dedup "A").1.allocated "gpu-0" ∧
     (SimpleAllocator.Allocate AllocState.empty ["gpu-0", "gpu-0"] "A").1.deviceToPod "gpu-0"
       = (SimpleAllocator.Allocate AllocState.empty
            (["gpu-0", "gpu-0"] : List String).dedup "A").1.deviceToPod "gpu-0") :=
  ⟨(C10_duplicates_as_set AllocState.empty ["gpu-0", "gpu-0"] "A" (by decide)).1.1,
   (C10_duplicates_as_set AllocState.empty ["gpu-0", "gpu-0"] "A" (by decide)).1.2 "gpu-0"⟩

/-- Claim C2 (code bug, evaluation at the failing input): starting from
the empty allocator, `Allocate(["gpu-0"], "pod-A")` followed by
`CleanupOrphanedDevices` with an empty discovered set removes gpu-0 from
the `allocated` set, yet `GetPodUID "gpu-0"` still returns `"pod-A"`
rather than the empty string the claim requires: the cleanup loop deletes
only from `allocated` and, unlike `Deallocate`, never touches the
`deviceToPod` record. -/
theorem C2_cleanup_keeps_stale_owner :
    (SimpleAllocator.GetPodUID
        (SimpleAllocator.CleanupOrphanedDevices
          (SimpleAllocator.Allocate AllocState.empty ["gpu-0"] "pod-A").1
          (fun _ => false)) "gpu-0" = "pod-A") ∧
    ((SimpleAllocator.CleanupOrphanedDevices
          (SimpleAllocator.Allocate AllocState.empty ["gpu-0"] "pod-A").1
          (fun _ => false)).allocated "gpu-0" = false) ∧
    ¬ (SimpleAllocator.GetPodUID
        (SimpleAllocator.CleanupOrphanedDevices
          (SimpleAllocator.Allocate AllocState.empty ["gpu-0"] "pod-A").1
          (fun _ => false)) "gpu-0" = "") := by decide

namespace MIGManager

theorem trimMemSuffix_gb (ds : List Char) : trimMemSuffix (ds ++ ['g', 'b']) = ds := by
  simp [trimMemSuffix, List.reverse_append]

theorem trimMemSuffix_g (ds : List Char) : trimMemSuffix (ds ++ ['g']) = ds := by
  simp [trimMemSuffix, List.reverse_append]

theorem parseGoUint64_digits (ds : List Char) (hne : ds ≠ [])
    (hdig : ∀ c ∈ ds, c.isDigit) (hlt : digitsVal ds < 2 ^ 64) :
    parseGoUint64 ds = some (digitsVal ds) := by
  have h1 : ds.isEmpty = false := by simpa [List.isEmpty_iff] using hne
  have h2 : ds.all Char.isDigit = true := List.all_eq_true.mpr hdig
  simp only [parseGoUint64, h1, h2, Bool.false_eq_true, if_false, if_true]
  rw [if_pos hlt]

end MIGManager

/-- Claim C5 (confirmed): for a profile of two dot-separated tokens whose
second token is digits followed by suffix `"g"` or `"gb"` (values within
the uint64 range of the Go code), `getProfileMemoryReq` returns the digit
value times 1024; a profile with fewer than two tokens, or whose second
token does not parse, yields 0; in particular `"3g.20gb"` yields 20480
and `"1g.5g"` yields 5120. -/
theorem C5_profile_memory_parsing (profile : String) :
    (∀ t1 t2 ds, MIGManager.splitDot profile.data = [t1, t2] →
       (t2 = ds ++ ['g'] ∨ t2 = ds ++ ['g', 'b']) →
       ds ≠ [] → (∀ c ∈ ds, c.isDigit) →
       MIGManager.digitsVal ds < 2 ^ 64 → MIGManager.digitsVal ds * 1024 < 2 ^ 64 →
       MIGManager.getProfileMemoryReq profile = MIGManager.digitsVal ds * 1024) ∧
    ((MIGManager.splitDot profile.data).length < 2 →
       MIGManager.getProfileMemoryReq profile = 0) ∧
    (∀ t1 t2, MIGManager.splitDot profile.data = [t1, t2] →
       MIGManager.parseGoUint64 (MIGManager.trimMemSuffix t2) = none →
       MIGManager.getProfileMemoryReq profile = 0) ∧
    MIGManager.getProfileMemoryReq "3g.20gb" = 20480 ∧
    MIGManager.getProfileMemoryReq "1g.5g" = 5120 := by
  refine ⟨?_, ?_, ?_, by decide, by decide⟩
  · rintro t1 t2 ds hsplit (rfl | rfl) hne hdig hlt hlt2
    · unfold MIGManager.getProfileMemoryReq
      rw [hsplit]
      simp [MIGManager.trimMemSuffix_g,
        MIGManager.parseGoUint64_digits ds hne hdig hlt, Nat.mod_eq_of_lt hlt2]
      exact hlt2.trans_eq (by norm_num)
    · unfold MIGManager.getProfileMemoryReq
      rw [hsplit]
      simp [MIGManager.trimMemSuffix_gb,
        MIGManager.parseGoUint64_digits ds hne hdig hlt, Nat.mod_eq_of_lt hlt2]
      exact hlt2.trans_eq (by norm_num)
  · intro hlen
    unfold MIGManager.getProfileMemoryReq
    simp [if_pos hlen]
  · intro t1 t2 hsplit hparse
    unfold MIGManager.getProfileMemoryReq
    rw [hsplit]
    simp [hparse]

/-- Witness for C5: instantiating the parsing theorem at `"3g.20gb"`,
whose second token is the digits `20` followed by `"gb"`. -/
theorem C5_witness :
    MIGManager.splitDot "3g.20gb".data = [['3', 'g'], ['2', '0', 'g', 'b']] ∧
    MIGManager.getProfileMemoryReq "3g.20gb" = MIGManager.digitsVal ['2', '0'] * 1024 :=
  ⟨by decide,
   (C5_profile_memory_parsing "3g.20gb").1 ['3', 'g'] ['2', '0', 'g', 'b'] ['2', '0']
     (by decide) (Or.inr (by decide)) (by decide) (by decide) (by decide) (by decide)⟩

/-- Claim C6 (confirmed): during reconciliation, for total memory `M` and
profile requirement `P > 0`, `maxInstances = M / P` (floor); a GPU with
`maxInstances = 0` is skipped; the effective creation count is
`min N maxInstances` when the configured count `N` is positive and
`maxInstances` otherwise; in particular 20480 MB with profile
`"3g.20gb"` gives 1 instance and 81920 MB with `"1g.10gb"` gives 8. -/
theorem C6_memory_bound_instance_count (M P N : Nat) :
    (P > 0 → M / P = 0 → MIGManager.computeCreateCount M P N = none) ∧
    (P > 0 → 0 < M / P →
       MIGManager.computeCreateCount M P N
         = some (if N > 0 then min N (M / P) else M / P)) ∧
    MIGManager.computeCreateCount 20480 (MIGManager.getProfileMemoryReq "3g.20gb") 0 = some 1 ∧
    MIGManager.computeCreateCount 81920 (MIGManager.getProfileMemoryReq "1g.10gb") 0 = some 8 := by
  refine ⟨?_, ?_, by decide, by decide⟩
  · intro hP h0
    simp [MIGManager.computeCreateCount, hP, h0]
  · intro hP h0
    have hmax : ¬ M / P = 0 := by omega
    unfold MIGManager.computeCreateCount
    rw [if_pos hP]
    by_cases hN : N > 0
    · by_cases hcmp : N > M / P
      · have h1 : min N (M / P) = M / P := min_eq_right (le_of_lt hcmp)
        simp [hmax, hN, hcmp, h1]
      · have h1 : min N (M / P) = N := min_eq_left (not_lt.mp hcmp)
        have hNne : ¬ N = 0 := by omega
        simp [hmax, hN, hcmp, h1, hNne]
    · simp [hmax, hN]

/-- Witness for C6: 81920 MB with a 10240 MB profile and configured
count 3 yields `min 3 8 = 3` instances. -/
theorem C6_witness :
    MIGManager.computeCreateCount 81920 10240 3
      = some (if 3 > 0 then min 3 (81920 / 10240) else 81920 / 10240) :=
  (C6_memory_bound_instance_count 81920 10240 3).2.1 (by decide) (by decide)

theorem createCallsAux_mem (c p : Nat) (ok : Nat → Bool) :
    ∀ fuel i call, call ∈ createCallsAux c p ok fuel i →
      call = { count := c, profileId := p } := by
  intro fuel
  induction fuel with
  | zero => intro i call h; simp [createCallsAux] at h
  | succ f ih =>
    intro i call h
    simp only [createCallsAux, List.mem_cons] at h
    rcases h with rfl | h
    · rfl
    · by_cases hok : ok i = true
      · rw [if_pos hok] at h
        exact ih (i + 1) call h
      · rw [if_neg hok] at h
        simp at h

theorem createCallsAux_length_ok (c p : Nat) (ok : Nat → Bool) (hall : ∀ i, ok i = true) :
    ∀ fuel i, (createCallsAux c p ok fuel i).length = fuel := by
  intro fuel
  induction fuel with
  | zero => intro i; simp [createCallsAux]
  | succ f ih => intro i; simp [createCallsAux, hall i, ih (i + 1)]

theorem createCallsAux_length_break (c p : Nat) (ok : Nat → Bool) :
    ∀ fuel i m, m < fuel → (∀ j, j < m → ok (i + j) = true) → ok (i + m) = false →
      (createCallsAux c p ok fuel i).length = m + 1 := by
  intro fuel
  induction fuel with
  | zero => intro i m hm; omega
  | succ f ih =>
    intro i m hm hok hfail
    cases m with
    | zero =>
      have h0 : ok i = false := by simpa using hfail
      simp [createCallsAux, h0]
    | succ m' =>
      have hok0 : ok i = true := by simpa using hok 0 (by omega)
      have htail : (createCallsAux c p ok f (i + 1)).length = m' + 1 := by
        apply ih (i + 1) m' (by omega)
        · intro j hj
          have := hok (j + 1) (by omega)
          rwa [show i + (j + 1) = i + 1 + j by omega] at this
        · rwa [show i + (m' + 1) = i + 1 + m' by omega] at hfail
      simp [createCallsAux, hok0, htail]

/-- Claim C7 is false as stated: for a GPU whose effective count resolves
to 2 with numeric profile id 9 and whose creation calls all succeed, the
engine issues two partition-creation calls — each describing
`2 × profile 9` — not exactly one. -/
theorem C7_counterexample :
    reconcileGpu
        { profile := "1g.10gb", skipConfigured := false, instanceCount := 0 }
        { index := "0", modeQueryOk := true, migModeEnabled := true, enableOk := true,
          countQueryOk := true, existingCount := 0, memQueryOk := true,
          totalMemory := 20480, profileIdResolved := some 9, createOk := fun _ => true }
      = [{ count := 2, profileId := 9 }, { count := 2, profileId := 9 }] ∧
    ¬ (reconcileGpu
        { profile := "1g.10gb", skipConfigured := false, instanceCount := 0 }
        { index := "0", modeQueryOk := true, migModeEnabled := true, enableOk := true,
          countQueryOk := true, existingCount := 0, memQueryOk := true,
          totalMemory := 20480, profileIdResolved := some 9, createOk := fun _ => true }).length
      = 1 := by decide

/-- Claim C7 (corrected): for every GPU processed with effective count
`count` and resolved profile id, the engine issues up to `count`
partition-creation calls, every one describing `count × profileId`
(`count` of them when all succeed, stopping right after the first failed
call); each GPU of the pass is processed independently and contributes
its own result, so a per-GPU failure never aborts the pass. -/
theorem C7_amended :
    (∀ createCount pid ok call, call ∈ createCalls createCount pid ok →
       call = { count := createCount, profileId := pid }) ∧
    (∀ createCount pid ok, (∀ i, ok i = true) →
       (createCalls createCount pid ok).length = createCount) ∧
    (∀ createCount pid ok m, m < createCount → (∀ j, j < m → ok j = true) → ok m = false →
       (createCalls createCount pid ok).length = m + 1) ∧
    (∀ cfg gpus g, g ∈ gpus →
       (g.index, reconcileGpu cfg g) ∈ createMIGDevicesRun cfg gpus) ∧
    (∀ cfg gpus, (createMIGDevicesRun cfg gpus).length = gpus.length) := by
  refine ⟨?_, ?_, ?_, ?_, ?_⟩
  · intro c p ok call h
    exact createCallsAux_mem c p ok c 0 call h
  · intro c p ok hall
    exact createCallsAux_length_ok c p ok hall c 0
  · intro c p ok m hm hok hfail
    apply createCallsAux_length_break c p ok c 0 m hm
    · intro j hj; simpa using hok j hj
    · simpa using hfail
  · intro cfg gpus g hg
    exact List.mem_map.mpr ⟨g, hg, rfl⟩
  · intro cfg gpus
    simp [createMIGDevicesRun]

/-- Witness for C7: with effective count 3 and the first creation call
succeeding but the second failing, exactly two calls are issued. -/
theorem C7_witness :
    (createCalls 3 9 (fun i => i == 0)).length = 1 + 1 :=
  C7_amended.2.2.1 3 9 (fun i => i == 0) 1 (by decide) (by decide) (by decide)

theorem runWatchLoop_append_ok (outcome : Nat → UpdateOutcome) :
    ∀ (es tail : List WatchEvent) (n : Nat),
      (∀ e ∈ es, e ≠ WatchEvent.stopSignal) →
      (∀ k, n ≤ k → k < n + es.length → outcome k = .okPush) →
      runWatchLoop outcome (es ++ tail) n = runWatchLoop outcome tail (n + es.length) := by
  intro es
  induction es with
  | nil => intro tail n _ _; simp
  | cons e rest ih =>
    intro tail n hns hok
    have hokn : outcome n = .okPush := hok n le_rfl (by simp)
    have hrest : runWatchLoop outcome (rest ++ tail) (n + 1)
        = runWatchLoop outcome tail (n + 1 + rest.length) := by
      apply ih tail (n + 1) (fun x hx => hns x (List.mem_cons_of_mem e hx))
      intro k hk1 hk2
      exact hok k (by omega) (by simp; omega)
    cases e with
    | stopSignal => exact absurd rfl (hns _ (List.mem_cons_self _ _))
    | tick =>
      rw [List.cons_append]
      show (if outcome n = .okPush then runWatchLoop outcome (rest ++ tail) (n + 1)
            else (n + 1, .faulted)) = _
      rw [if_pos hokn, hrest]
      congr 1
      simp
      omega
    | healthSignal id =>
      rw [List.cons_append]
      show (if outcome n = .okPush then runWatchLoop outcome (rest ++ tail) (n + 1)
            else (n + 1, .faulted)) = _
      rw [if_pos hokn, hrest]
      congr 1
      simp
      omega

/-- Claim C8 (confirmed): `ListAndWatch` performs exactly one
`updateDeviceList` (one discovery + one push) before waiting on any
event; each tick or health signal triggers exactly one more and the loop
continues streaming; a discovery or push failure ends the watch with an
error after that one invocation; the stop signal ends the watch with no
error and no further invocation. -/
theorem C8_watch_state_machine (outcome : Nat → UpdateOutcome) (events : List WatchEvent) :
    (listAndWatch outcome []
       = (1, if outcome 0 = .okPush then WatchStatus.streaming else .faulted)) ∧
    (outcome 0 ≠ .okPush → listAndWatch outcome events = (1, .faulted)) ∧
    ((∀ k, outcome k = .okPush) → (∀ e ∈ events, e ≠ WatchEvent.stopSignal) →
       listAndWatch outcome events = (1 + events.length, .streaming)) ∧
    (∀ es es', (∀ e ∈ es, e ≠ WatchEvent.stopSignal) → (∀ k, outcome k = .okPush) →
       events = es ++ WatchEvent.stopSignal :: es' →
       listAndWatch outcome events = (1 + es.length, .stopped)) ∧
    (∀ es e es', (∀ x ∈ es, x ≠ WatchEvent.stopSignal) → e ≠ WatchEvent.stopSignal →
       (∀ k, k ≤ es.length → outcome k = .okPush) → outcome (es.length + 1) ≠ .okPush →
       events = es ++ e :: es' →
       listAndWatch outcome events = (es.length + 2, .faulted)) := by
  refine ⟨?_, ?_, ?_, ?_, ?_⟩
  · by_cases h : outcome 0 = .okPush
    · simp [listAndWatch, h, runWatchLoop]
    · simp [listAndWatch, h]
  · intro h
    simp [listAndWatch, h]
  · intro hall hns
    have h0 : outcome 0 = .okPush := hall 0
    have := runWatchLoop_append_ok outcome events [] 1 hns
      (fun k _ _ => hall k)
    simp only [List.append_nil] at this
    simp [listAndWatch, h0, this, runWatchLoop, Nat.add_comm]
  · intro es es' hns hall heq
    subst heq
    have h0 : outcome 0 = .okPush := hall 0
    have hpre := runWatchLoop_append_ok outcome es (WatchEvent.stopSignal :: es') 1 hns
      (fun k _ _ => hall k)
    simp [listAndWatch, h0, hpre, runWatchLoop, Nat.add_comm]
  · intro es e es' hns hne hok hfail heq
    subst heq
    have h0 : outcome 0 = .okPush := hok 0 (by omega)
    have hpre := runWatchLoop_append_ok outcome es (e :: es') 1 hns
      (fun k hk1 hk2 => hok k (by omega))
    rw [listAndWatch, if_pos h0, hpre]
    have h1 : 1 + es.length = es.length + 1 := by omega
    cases e with
    | stopSignal => exact absurd rfl hne
    | tick =>
      rw [h1]
      show (if outcome (es.length + 1) = .okPush then _ else (es.length + 1 + 1, WatchStatus.faulted)) = _
      rw [if_neg hfail]
    | healthSignal id =>
      rw [h1]
      show (if outcome (es.length + 1) = .okPush then _ else (es.length + 1 + 1, WatchStatus.faulted)) = _
      rw [if_neg hfail]

/-- Witness for C8: a run receiving a tick and a health signal before the
stop signal performs exactly three updates (one initial, one per event)
and ends stopped. -/
theorem C8_witness :
    listAndWatch (fun _ => UpdateOutcome.okPush)
        [WatchEvent.tick, WatchEvent.healthSignal "dev-0", WatchEvent.stopSignal]
      = (1 + ([WatchEvent.tick, WatchEvent.healthSignal "dev-0"] : List WatchEvent).length,
         WatchStatus.stopped) :=
  (C8_watch_state_machine (fun _ => UpdateOutcome.okPush)
      [WatchEvent.tick, WatchEvent.healthSignal "dev-0", WatchEvent.stopSignal]).2.2.2.1
    [WatchEvent.tick, WatchEvent.healthSignal "dev-0"] []
    (by decide) (fun _ => rfl) rfl

theorem healthStep_conserves {s t : HealthSignalState} (h : HealthStep s t) :
    t.pushes + t.pending.length + bufCount t.buffer
      = s.pushes + s.pending.length + bufCount s.buffer := by
  cases h <;> simp [bufCount] <;> omega

theorem healthReach_conserves {s t : HealthSignalState} (h : HealthReach s t) :
    t.pushes + t.pending.length + bufCount t.buffer
      = s.pushes + s.pending.length + bufCount s.buffer := by
  induction h with
  | refl => rfl
  | tail _ hstep ih => rw [healthStep_conserves hstep, ih]

theorem healthTrace_two :
    HealthReach ⟨["dev-0", "dev-1"], none, 0⟩ ⟨[], none, 2⟩ := by
  have s1 : HealthStep ⟨["dev-0", "dev-1"], none, 0⟩ ⟨["dev-1"], some "dev-0", 0⟩ :=
    HealthStep.send "dev-0" ["dev-1"] 0
  have s2 : HealthStep ⟨["dev-1"], some "dev-0", 0⟩ ⟨["dev-1"], none, 1⟩ :=
    HealthStep.recv ["dev-1"] "dev-0" 0
  have s3 : HealthStep ⟨["dev-1"], none, 1⟩ ⟨[], some "dev-1", 1⟩ :=
    HealthStep.send "dev-1" [] 1
  have s4 : HealthStep ⟨[], some "dev-1", 1⟩ ⟨[], none, 2⟩ :=
    HealthStep.recv [] "dev-1" 1
  exact .tail (.tail (.tail (.tail .refl s1) s2) s3) s4

/-- Claim C3 is false as stated: from the state in which the health-check
task has two signals to send and the channel is empty, the system reaches
the completed state with two watch-loop pushes, and it can never complete
with only one push — the second signal is not dropped, because a send on
the full capacity-1 channel blocks instead of discarding. -/
theorem C3_counterexample :
    HealthReach ⟨["dev-0", "dev-1"], none, 0⟩ ⟨[], none, 2⟩ ∧
    ¬ HealthReach ⟨["dev-0", "dev-1"], none, 0⟩ ⟨[], none, 1⟩ := by
  refine ⟨healthTrace_two, fun h => ?_⟩
  have := healthReach_conserves h
  simp [bufCount] at this

/-- Claim C3 (corrected): the health channel is single-slot — at most one
notification is ever buffered — and a send is only enabled when the
buffer is empty, so a second signal sent before the first is drained
blocks the health-check task rather than being dropped or queued;
consequently the number of pushes plus undelivered signals is invariant,
and two signals sent before either is consumed eventually yield two
extra pushes, not one. -/
theorem C3_amended :
    (∀ s t : HealthSignalState, HealthStep s t → bufCount t.buffer ≤ 1) ∧
    (∀ s t : HealthSignalState, HealthStep s t →
       t.pushes + t.pending.length + bufCount t.buffer
         = s.pushes + s.pending.length + bufCount s.buffer) ∧
    (∀ (pend : List String) (y : String) (p : Nat) (t : HealthSignalState),
       HealthStep ⟨pend, some y, p⟩ t → t = ⟨pend, none, p + 1⟩) ∧
    (∀ s : HealthSignalState, HealthReach ⟨["dev-0", "dev-1"], none, 0⟩ s →
       s.pending = [] → s.buffer = none → s.pushes = 2) := by
  refine ⟨?_, ?_, ?_, ?_⟩
  · intro s t h; cases h <;> simp [bufCount]
  · intro s t h; exact healthStep_conserves h
  · intro pend y p t h
    cases h
    rfl
  · intro s h hp hb
    have hc := healthReach_conserves h
    simp [bufCount, hp, hb] at hc
    exact hc

/-- Witness for C3: the completed execution of the two-signal scenario,
reached by the explicit four-step trace, has exactly two pushes. -/
theorem C3_witness :
    (⟨[], none, 2⟩ : HealthSignalState).pushes = 2 :=
  C3_amended.2.2.2 ⟨[], none, 2⟩ healthTrace_two rfl rfl

theorem mem_recyclerToRelease (lookup : String → Option PodStatus) :
    ∀ (snap : List (String × String)) (d : String),
      d ∈ recyclerToRelease lookup snap
        ↔ ∃ p, (d, p) ∈ snap ∧ (p = "" ∨ isPodActive lookup p = false) := by
  intro snap
  induction snap with
  | nil => simp [recyclerToRelease]
  | cons e rest ih =>
    intro d
    obtain ⟨d', p'⟩ := e
    by_cases h1 : p' = ""
    · subst h1
      simp [recyclerToRelease, ih, Prod.ext_iff]
      aesop
    · by_cases h2 : isPodActive lookup p' = false
      · simp [recyclerToRelease, h1, h2, ih, Prod.ext_iff]
        aesop
      · have h2t : isPodActive lookup p' = true := by
          simpa using h2
        simp [recyclerToRelease, h1, h2t, ih, Prod.ext_iff]
        aesop

/-- Claim C9 (confirmed): in one recycler pass over a snapshot of the
allocation map, every entry with an empty owner token is marked for
release, every entry whose owner is not active is marked, entries with
an active owner are kept untouched, and all marked devices are released
in a single batch `Deallocate` at the end of the scan; in particular a
device allocated to a pod whose liveness lookup fails is absent from
both maps afterwards. -/
theorem C9_recycler_pass (lookup : String → Option PodStatus) (st : AllocState)
    (snapshot : List (String × String)) (henum : Enumerates st snapshot) :
    (∀ d p, (d, p) ∈ snapshot → p = "" → d ∈ recyclerToRelease lookup snapshot) ∧
    (∀ d p, (d, p) ∈ snapshot → isPodActive lookup p = false →
       d ∈ recyclerToRelease lookup snapshot) ∧
    (∀ d p, (d, p) ∈ snapshot → isPodActive lookup p = true →
       d ∉ recyclerToRelease lookup snapshot ∧
       (recyclerPass lookup st snapshot).allocated d = st.allocated d ∧
       (recyclerPass lookup st snapshot).deviceToPod d = some p) ∧
    (recyclerPass lookup st snapshot
       = if snapshot.isEmpty then st
         else if (recyclerToRelease lookup snapshot).isEmpty then st
         else SimpleAllocator.Deallocate st (recyclerToRelease lookup snapshot)) ∧
    (∀ d p, (d, p) ∈ snapshot → st.allocated d = true → isPodActive lookup p = false →
       (recyclerPass lookup st snapshot).allocated d = false ∧
       (recyclerPass lookup st snapshot).deviceToPod d = none) := by
  have hsnap_ne : ∀ (d : String) (p : String), (d, p) ∈ snapshot → snapshot.isEmpty = false := by
    intro d p h
    cases snapshot with
    | nil => simp at h
    | cons x xs => simp
  refine ⟨?_, ?_, ?_, rfl, ?_⟩
  · intro d p hmem hp
    exact (mem_recyclerToRelease lookup snapshot d).mpr ⟨p, hmem, Or.inl hp⟩
  · intro d p hmem hact
    exact (mem_recyclerToRelease lookup snapshot d).mpr ⟨p, hmem, Or.inr hact⟩
  · intro d p hmem hact
    have hnot : d ∉ recyclerToRelease lookup snapshot := by
      intro hin
      obtain ⟨q, hq, hc⟩ := (mem_recyclerToRelease lookup snapshot d).mp hin
      have h1 : st.deviceToPod d = some q := (henum d q).mp hq
      have h2 : st.deviceToPod d = some p := (henum d p).mp hmem
      have : q = p := by rw [h1] at h2; exact Option.some.inj h2
      subst this
      rcases hc with rfl | hinact
      · simp [isPodActive] at hact
      · rw [hact] at hinact
        exact Bool.true_eq_false.mp hinact
    have hcont : (recyclerToRelease lookup snapshot).contains d = false := by
      simp [List.contains, List.elem_eq_mem, hnot]
    refine ⟨hnot, ?_, ?_⟩
    · unfold recyclerPass
      rw [hsnap_ne d p hmem]
      by_cases he : (recyclerToRelease lookup snapshot).isEmpty
      · simp [he]
      · simp only [he, Bool.false_eq_true, if_false]
        show (st.allocated d && !(recyclerToRelease lookup snapshot).contains d)
          = st.allocated d
        rw [hcont]
        simp
    · unfold recyclerPass
      rw [hsnap_ne d p hmem]
      by_cases he : (recyclerToRelease lookup snapshot).isEmpty
      · simp only [he, if_true]
        exact (henum d p).mp hmem
      · simp only [he, Bool.false_eq_true, if_false]
        show (if (recyclerToRelease lookup snapshot).contains d && st.allocated d
              then none else st.deviceToPod d) = some p
        rw [hcont]
        simpa using (henum d p).mp hmem
  · intro d p hmem hall hinact
    have hin : d ∈ recyclerToRelease lookup snapshot :=
      (mem_recyclerToRelease lookup snapshot d).mpr ⟨p, hmem, Or.inr hinact⟩
    have hcont : (recyclerToRelease lookup snapshot).contains d = true :=
      list_contains_of_mem hin
    have hne : (recyclerToRelease lookup snapshot).isEmpty = false := by
      cases h : recyclerToRelease lookup snapshot with
      | nil => rw [h] at hin; simp at hin
      | cons x xs => simp
    unfold recyclerPass
    rw [hsnap_ne d p hmem]
    simp only [hne, Bool.false_eq_true, if_false]
    constructor
    · show (st.allocated d && !(recyclerToRelease lookup snapshot).contains d) = false
      rw [hcont]
      simp
    · show (if (recyclerToRelease lookup snapshot).contains d && st.allocated d
            then none else st.deviceToPod d) = none
      rw [hcont, hall]
      simp

theorem singleAllocEnumerates :
    Enumerates (SimpleAllocator.Allocate AllocState.empty ["gpu-1"] "pod-A").1
      [("gpu-1", "pod-A")] := by
  intro d p
  show (d, p) ∈ [("gpu-1", "pod-A")] ↔
    (if (["gpu-1"] : List String).contains d then some "pod-A" else none) = some p
  by_cases hd : d = "gpu-1"
  · subst hd
    have hc : (["gpu-1"] : List String).contains "gpu-1" = true := by decide
    rw [hc]
    simp [Prod.ext_iff, eq_comm]
  · have hc : (["gpu-1"] : List String).contains d = false := by
      simp [List.contains, List.elem_eq_mem, hd]
    rw [hc]
    simp [Prod.ext_iff, hd]

/-- Witness for C9: `"gpu-1"` allocated to `"pod-A"` with a liveness
lookup that resolves nothing — after one pass gpu-1 is absent from the
allocation map. -/
theorem C9_witness :
    (recyclerPass (fun _ => none)
        (SimpleAllocator.Allocate AllocState.empty ["gpu-1"] "pod-A").1
        [("gpu-1", "pod-A")]).allocated "gpu-1" = false ∧
    (recyclerPass (fun _ => none)
        (SimpleAllocator.Allocate AllocState.empty ["gpu-1"] "pod-A").1
        [("gpu-1", "pod-A")]).deviceToPod "gpu-1" = none :=
  (C9_recycler_pass (fun _ => none)
      (SimpleAllocator.Allocate AllocState.empty ["gpu-1"] "pod-A").1
      [("gpu-1", "pod-A")] singleAllocEnumerates).2.2.2.2 "gpu-1" "pod-A"
    (by decide) (by decide) (by decide)

/-- Claim C4 is false as stated: with `d1` held by the inactive owner
pod-X and `d2` held by the active owner pod-Y, the request for
`[d1, d2]` fails with the already-allocated error on `d2`, yet the state
has been mutated — the stale entry `d1`, scanned first, was already
deallocated when the handler aborted. -/
theorem C4_counterexample :
    (handleContainerAllocate
        (fun u => if u == "pod-Y" then some { deleting := false, phase := .running } else none)
        { allocated := fun d => d == "d1" || d == "d2",
          deviceToPod := fun d =>
            if d == "d1" then some "pod-X" else if d == "d2" then some "pod-Y" else none }
        ["d1", "d2"] "caller").2 = some (.alreadyAllocated "d2") ∧
    ({ allocated := fun d => d == "d1" || d == "d2",
       deviceToPod := fun d =>
         if d == "d1" then some "pod-X" else if d == "d2" then some "pod-Y" else none
       : AllocState }).allocated "d1" = true ∧
    (handleContainerAllocate
        (fun u => if u == "pod-Y" then some { deleting := false, phase := .running } else none)
        { allocated := fun d => d == "d1" || d == "d2",
          deviceToPod := fun d =>
            if d == "d1" then some "pod-X" else if d == "d2" then some "pod-Y" else none }
        ["d1", "d2"] "caller").1.allocated "d1" = false := by decide

theorem scanRel_refl (lookup : String → Option PodStatus) (st : AllocState) :
    ScanRel lookup st st :=
  fun _ => Or.inl ⟨rfl, rfl⟩

theorem scanRel_trans {lookup : String → Option PodStatus} {st st₁ st₂ : AllocState}
    (h1 : ScanRel lookup st st₁) (h2 : ScanRel lookup st₁ st₂) :
    ScanRel lookup st st₂ := by
  intro d
  rcases h1 d with ⟨ha1, hp1⟩ | ⟨ha1, hb1, hc1, hd1⟩
  · rcases h2 d with ⟨ha2, hp2⟩ | ⟨ha2, hb2, hc2, hd2⟩
    · exact Or.inl ⟨ha2.trans ha1, hp2.trans hp1⟩
    · refine Or.inr ⟨ha1 ▸ ha2, hb2, hc2, ?_⟩
      have : SimpleAllocator.GetPodUID st₁ d = SimpleAllocator.GetPodUID st d := by
        unfold SimpleAllocator.GetPodUID
        rw [hp1]
      rwa [this] at hd2
  · rcases h2 d with ⟨ha2, hp2⟩ | ⟨ha2, hb2, hc2, hd2⟩
    · exact Or.inr ⟨ha1, ha2.trans hb1, hp2.trans hc1, hd1⟩
    · rw [hb1] at ha2
      exact absurd ha2 (by simp)

theorem scanRel_dealloc {lookup : String → Option PodStatus} {st : AllocState} {id : String}
    (hall : st.allocated id = true)
    (hinact : isPodActive lookup (SimpleAllocator.GetPodUID st id) = false) :
    ScanRel lookup st (SimpleAllocator.Deallocate st [id]) := by
  intro d
  by_cases hd : d = id
  · subst hd
    refine Or.inr ⟨hall, ?_, ?_, hinact⟩
    · show (st.allocated d && !([d] : List String).contains d) = false
      rw [list_contains_of_mem (List.mem_singleton_self d)]
      simp
    · show (if ([d] : List String).contains d && st.allocated d then none
            else st.deviceToPod d) = none
      rw [list_contains_of_mem (List.mem_singleton_self d), hall]
      simp
  · have hc : ([id] : List String).contains d = false := by
      simp [List.contains, List.elem_eq_mem]
      exact fun h => absurd h hd
    refine Or.inl ⟨?_, ?_⟩
    · show (st.allocated d && !([id] : List String).contains d) = st.allocated d
      rw [hc]
      simp
    · show (if ([id] : List String).contains d && st.allocated d then none
            else st.deviceToPod d) = st.deviceToPod d
      rw [hc]
      simp

theorem checkAvailability_scanRel (lookup : String → Option PodStatus) :
    ∀ (ids : List String) (st : AllocState),
      ScanRel lookup st (checkAvailability lookup st ids).1 := by
  intro ids
  induction ids with
  | nil => intro st; exact scanRel_refl lookup st
  | cons id rest ih =>
    intro st
    show ScanRel lookup st
      (if SimpleAllocator.IsAvailable st id then checkAvailability lookup st rest
       else if isPodActive lookup (SimpleAllocator.GetPodUID st id) then (st, some id)
       else checkAvailability lookup (SimpleAllocator.Deallocate st [id]) rest).1
    by_cases h1 : SimpleAllocator.IsAvailable st id
    · rw [if_pos h1]
      exact ih st
    · rw [if_neg h1]
      by_cases h2 : isPodActive lookup (SimpleAllocator.GetPodUID st id) = true
      · rw [if_pos h2]
        exact scanRel_refl lookup st
      · rw [if_neg h2]
        have hall : st.allocated id = true := by
          have : ¬ (!st.allocated id) = true := h1
          simp at this
          exact this
        have hinact : isPodActive lookup (SimpleAllocator.GetPodUID st id) = false := by
          simpa using h2
        exact scanRel_trans (scanRel_dealloc hall hinact)
          (ih (SimpleAllocator.Deallocate st [id]))

theorem checkAvailability_conflict (lookup : String → Option PodStatus) :
    ∀ (ids : List String) (st st' : AllocState) (cid : String),
      checkAvailability lookup st ids = (st', some cid) →
      cid ∈ ids ∧ st'.allocated cid = true ∧ st'.deviceToPod cid = st.deviceToPod cid ∧
      isPodActive lookup (SimpleAllocator.GetPodUID st' cid) = true := by
  intro ids
  induction ids with
  | nil =>
    intro st st' cid h
    exact absurd (congrArg Prod.snd h) (by simp [checkAvailability])
  | cons id rest ih =>
    intro st st' cid h
    rw [show checkAvailability lookup st (id :: rest)
        = (if SimpleAllocator.IsAvailable st id then checkAvailability lookup st rest
           else if isPodActive lookup (SimpleAllocator.GetPodUID st id) then (st, some id)
           else checkAvailability lookup (SimpleAllocator.Deallocate st [id]) rest) from rfl] at h
    by_cases h1 : SimpleAllocator.IsAvailable st id
    · rw [if_pos h1] at h
      obtain ⟨hmem, hrest⟩ := ih st st' cid h
      exact ⟨List.mem_cons_of_mem id hmem, hrest⟩
    · rw [if_neg h1] at h
      by_cases h2 : isPodActive lookup (SimpleAllocator.GetPodUID st id) = true
      · rw [if_pos h2] at h
        have hst : st' = st := (congrArg Prod.fst h).symm
        have hcid : cid = id := by
          have := congrArg Prod.snd h
          simpa using this.symm
        subst hst; subst hcid
        have hall : st'.allocated cid = true := by
          have : ¬ (!st'.allocated cid) = true := h1
          simp at this
          exact this
        exact ⟨List.mem_cons_self cid rest, hall, rfl, h2⟩
      · rw [if_neg h2] at h
        obtain ⟨hmem, hall, hpod, hact⟩ := ih (SimpleAllocator.Deallocate st [id]) st' cid h
        refine ⟨List.mem_cons_of_mem id hmem, hall, ?_, hact⟩
        rw [hpod]
        by_cases hd : cid = id
        · subst hd
          -- cid was deallocated, so it cannot end the scan allocated again: derive a contradiction
          have hrel := checkAvailability_scanRel lookup rest (SimpleAllocator.Deallocate st [cid])
          rw [h] at hrel
          rcases hrel cid with ⟨ha, _⟩ | ⟨ha, _, _, _⟩
          · rw [hall] at ha
            have : (SimpleAllocator.Deallocate st [cid]).allocated cid = false := by
              show (st.allocated cid && !([cid] : List String).contains cid) = false
              rw [list_contains_of_mem (List.mem_singleton_self cid)]
              simp
            rw [this] at ha
            exact absurd ha (by simp)
          · have : (SimpleAllocator.Deallocate st [cid]).allocated cid = false := by
              show (st.allocated cid && !([cid] : List String).contains cid) = false
              rw [list_contains_of_mem (List.mem_singleton_self cid)]
              simp
            rw [this] at ha
            exact absurd ha (by simp)
        · show (SimpleAllocator.Deallocate st [id]).deviceToPod cid = st.deviceToPod cid
          have hc : ([id] : List String).contains cid = false := by
            simp [List.contains, List.elem_eq_mem]
            exact fun hx => absurd hx hd
          show (if ([id] : List String).contains cid && st.allocated cid then none
                else st.deviceToPod cid) = st.deviceToPod cid
          rw [hc]
          simp

theorem checkAvailability_none (lookup : String → Option PodStatus) :
    ∀ (ids : List String) (st st' : AllocState),
      checkAvailability lookup st ids = (st', none) →
      ∀ id, id ∈ ids → st'.allocated id = false := by
  intro ids
  induction ids with
  | nil =>
    intro st st' h id hid
    simp at hid
  | cons id0 rest ih =>
    intro st st' h id hid
    rw [show checkAvailability lookup st (id0 :: rest)
        = (if SimpleAllocator.IsAvailable st id0 then checkAvailability lookup st rest
           else if isPodActive lookup (SimpleAllocator.GetPodUID st id0) then (st, some id0)
           else checkAvailability lookup (SimpleAllocator.Deallocate st [id0]) rest) from rfl] at h
    by_cases h1 : SimpleAllocator.IsAvailable st id0
    · rw [if_pos h1] at h
      rcases List.mem_cons.mp hid with rfl | hmem
      · have hrel := checkAvailability_scanRel lookup rest st
        rw [h] at hrel
        have hsta : st.allocated id = false := by
          have hb : (!st.allocated id) = true := h1
          simpa using hb
        rcases hrel id with ⟨ha, _⟩ | ⟨_, hb, _, _⟩
        · rw [ha, hsta]
        · exact hb
      · exact ih st st' h id hmem
    · rw [if_neg h1] at h
      by_cases h2 : isPodActive lookup (SimpleAllocator.GetPodUID st id0) = true
      · rw [if_pos h2] at h
        exact absurd (congrArg Prod.snd h) (by simp)
      · rw [if_neg h2] at h
        rcases List.mem_cons.mp hid with rfl | hmem
        · have hrel := checkAvailability_scanRel lookup rest
            (SimpleAllocator.Deallocate st [id])
          rw [h] at hrel
          have hd0 : (SimpleAllocator.Deallocate st [id]).allocated id = false := by
            show (st.allocated id && !([id] : List String).contains id) = false
            rw [list_contains_of_mem (List.mem_singleton_self id)]
            simp
          rcases hrel id with ⟨ha, _⟩ | ⟨_, hb, _, _⟩
          · rw [ha, hd0]
          · exact hb
        · exact ih (SimpleAllocator.Deallocate st [id0]) st' h id hmem

/-- Claim C4 (corrected): in the `Allocate` handler's pre-scan, an
unavailable id whose recorded owner is active fails the whole request
with the already-allocated error — the conflicting entry itself is
untouched and nothing is newly allocated, but stale entries scanned
earlier in the same request have already been silently deallocated
(`ScanRel`: every device is either untouched or was a present entry with
a non-active owner, including lookup failures, that the scan reclaimed);
when no conflict arises, every stale entry is reclaimed and the request
allocates all ids to the resolved caller identity. -/
theorem C4_amended (lookup : String → Option PodStatus) (st : AllocState)
    (ids : List String) (podUID : String) :
    (∀ st' cid, checkAvailability lookup st ids = (st', some cid) →
       handleContainerAllocate lookup st ids podUID = (st', some (.alreadyAllocated cid)) ∧
       cid ∈ ids ∧ st'.allocated cid = true ∧
       st'.deviceToPod cid = st.deviceToPod cid ∧
       isPodActive lookup (SimpleAllocator.GetPodUID st' cid) = true ∧
       ScanRel lookup st st') ∧
    (∀ st', checkAvailability lookup st ids = (st', none) →
       ScanRel lookup st st' ∧
       (handleContainerAllocate lookup st ids podUID).2 = none ∧
       ∀ id, id ∈ ids →
         (handleContainerAllocate lookup st ids podUID).1.allocated id = true ∧
         (handleContainerAllocate lookup st ids podUID).1.deviceToPod id = some podUID) := by
  constructor
  · intro st' cid h
    obtain ⟨hmem, hall, hpod, hact⟩ := checkAvailability_conflict lookup ids st st' cid h
    have hrel := checkAvailability_scanRel lookup ids st
    rw [h] at hrel
    refine ⟨?_, hmem, hall, hpod, hact, hrel⟩
    unfold handleContainerAllocate
    rw [h]
  · intro st' h
    have hrel := checkAvailability_scanRel lookup ids st
    rw [h] at hrel
    have havail := checkAvailability_none lookup ids st st' h
    have hany : ids.any st'.allocated = false := by
      simp only [List.any_eq_false]
      intro x hx
      simp [havail x hx]
    have halloc : SimpleAllocator.Allocate st' ids podUID
        = ({ allocated := fun d => st'.allocated d || ids.contains d,
             deviceToPod := fun d =>
               if ids.contains d then some podUID else st'.deviceToPod d }, none) := by
      unfold SimpleAllocator.Allocate
      rw [hany]
      simp
    have hhandle : handleContainerAllocate lookup st ids podUID
        = ({ allocated := fun d => st'.allocated d || ids.contains d,
             deviceToPod := fun d =>
               if ids.contains d then some podUID else st'.deviceToPod d }, none) := by
      unfold handleContainerAllocate
      rw [h]
      show (match SimpleAllocator.Allocate st' ids podUID with
            | (st'', none) => (st'', none)
            | (st'', some e) => (st'', some (AllocateReqError.allocationFailed e)))
        = ({ allocated := fun d => st'.allocated d || ids.contains d,
             deviceToPod := fun d =>
               if ids.contains d then some podUID else st'.deviceToPod d }, none)
      rw [halloc]
    refine ⟨hrel, ?_, ?_⟩
    · rw [hhandle]
    · intro id hid
      rw [hhandle]
      simp only [list_contains_of_mem hid, Bool.or_true, if_true]
      exact ⟨trivial, trivial⟩

/-- Witness for C4: a single-device request conflicting with the active
owner pod-Y fails with the already-allocated error and returns the state
unchanged. -/
theorem C4_witness :
    handleContainerAllocate
        (fun u => if u == "pod-Y" then some { deleting := false, phase := .running } else none)
        { allocated := fun d => d == "d2",
          deviceToPod := fun d => if d == "d2" then some "pod-Y" else none }
        ["d2"] "caller"
      = ({ allocated := fun d => d == "d2",
           deviceToPod := fun d => if d == "d2" then some "pod-Y" else none },
         some (.alreadyAllocated "d2")) :=
  ((C4_amended
      (fun u => if u == "pod-Y" then some { deleting := false, phase := .running } else none)
      { allocated := fun d => d == "d2",
        deviceToPod := fun d => if d == "d2" then some "pod-Y" else none }
      ["d2"] "caller").1
    { allocated := fun d => d == "d2",
      deviceToPod := fun d => if d == "d2" then some "pod-Y" else none }
    "d2" rfl).1
